import Mathlib

/-!
Verification development for the PDF form extract / edit / apply web application.

The source of truth is the main application module
(src/pdf_form_extract_edit_apply_webapp_react_pdf_js_pdf_lib_interact.jsx);
numbers are modelled by exact rationals, JavaScript exceptions by Except,
and the mutable pdf-lib document by explicit state values.
-/

namespace PdfFormApp

/-! ## Geometry: viewports and rectangle conversion

Viewport rectangles are plain records with an x/y origin and extents,
mirroring the objects returned by the two conversion helpers in the source.
-/

/-- A rectangle given as origin plus extents, as returned by
viewportToPdfRectFromViewportRect and pdfRectToViewportRect. -/
structure VRect where
  x : ℚ
  y : ℚ
  width : ℚ
  height : ℚ
deriving DecidableEq, Repr

/-- A four-entry rectangle array in the PDF convention,
two opposite corners as in an annot's rect field. -/
structure Rect4 where
  x1 : ℚ
  y1 : ℚ
  x2 : ℚ
  y2 : ℚ
deriving DecidableEq, Repr

/-- An affine transform given by the six-entry matrix the rendering
library stores on a page viewport. -/
structure Transform where
  m0 : ℚ
  m1 : ℚ
  m2 : ℚ
  m3 : ℚ
  m4 : ℚ
  m5 : ℚ
deriving DecidableEq, Repr

/-- Forward application of a viewport transform to a point,
as in the rendering library's applyTransform utility. -/
def applyTransform (t : Transform) (x y : ℚ) : ℚ × ℚ :=
  ⟨t.m0 * x + t.m2 * y + t.m4, t.m1 * x + t.m3 * y + t.m5⟩

/-- Inverse application of a viewport transform to a point,
as in the rendering library's applyInverseTransform utility. -/
def applyInverseTransform (t : Transform) (x y : ℚ) : ℚ × ℚ :=
  let d := t.m0 * t.m3 - t.m1 * t.m2
  ⟨(x * t.m3 - y * t.m2 + t.m2 * t.m5 - t.m4 * t.m3) / d,
   (-(x * t.m1) + y * t.m0 + t.m4 * t.m1 - t.m5 * t.m0) / d⟩

/-- The page box of a loaded page: two corners in PDF point space. -/
structure ViewBox where
  x0 : ℚ
  y0 : ℚ
  x1 : ℚ
  y1 : ℚ
deriving DecidableEq, Repr

/-- The four axis-aligned page rotations the rendering library accepts. -/
inductive Rot where
  | r0
  | r90
  | r180
  | r270
deriving DecidableEq, Repr

/-- Rotation matrix entry A used by the viewport constructor. -/
def rotA : Rot → ℚ
  | .r0 => 1
  | .r90 => 0
  | .r180 => -1
  | .r270 => 0

/-- Rotation matrix entry B used by the viewport constructor. -/
def rotB : Rot → ℚ
  | .r0 => 0
  | .r90 => 1
  | .r180 => 0
  | .r270 => -1

/-- Rotation matrix entry C used by the viewport constructor. -/
def rotC : Rot → ℚ
  | .r0 => 0
  | .r90 => 1
  | .r180 => 0
  | .r270 => -1

/-- Rotation matrix entry D used by the viewport constructor. -/
def rotD : Rot → ℚ
  | .r0 => -1
  | .r90 => 0
  | .r180 => 1
  | .r270 => 0

/-- Modelled from the spec: the rendering library's page viewport (an excluded
external collaborator, exposed as get-viewport(scale, rotation)).  The spec
describes it as the derived transform composing scale, the page rotation and
the y-axis flip between PDF space (origin bottom-left) and rendering space
(origin top-left); the matrix layout follows the library's documented
viewport construction for the four axis-aligned rotations with zero
canvas offsets. -/
def pageViewport (vb : ViewBox) (scale : ℚ) (rot : Rot) : Transform :=
  let cX := (vb.x1 + vb.x0) / 2
  let cY := (vb.y1 + vb.y0) / 2
  let a := rotA rot
  let b := rotB rot
  let c := rotC rot
  let d := rotD rot
  let offX := if a = 0 then |cY - vb.y0| * scale else |cX - vb.x0| * scale
  let offY := if a = 0 then |cX - vb.x0| * scale else |cY - vb.y0| * scale
  ⟨a * scale, b * scale, c * scale, d * scale,
   offX - a * scale * cX - c * scale * cY,
   offY - b * scale * cX - d * scale * cY⟩

/-- convertToPdfPoint on a viewport: the inverse transform applied to a
rendering-space point. -/
def convertToPdfPoint (t : Transform) (x y : ℚ) : ℚ × ℚ :=
  applyInverseTransform t x y

/-- convertToViewportRectangle on a viewport: the forward transform applied
to the two corners of a PDF rect array. -/
def convertToViewportRectangle (t : Transform) (r : Rect4) : Rect4 :=
  let tl := applyTransform t r.x1 r.y1
  let br := applyTransform t r.x2 r.y2
  ⟨tl.1, tl.2, br.1, br.2⟩

/-- Source function viewportToPdfRectFromViewportRect: map the two opposite
corners through convertToPdfPoint and normalize with min/abs. -/
def viewportToPdfRectFromViewportRect (vx vy vwidth vheight : ℚ)
    (viewport : Transform) : VRect :=
  let p1 := convertToPdfPoint viewport vx vy
  let p2 := convertToPdfPoint viewport (vx + vwidth) (vy + vheight)
  ⟨min p1.1 p2.1, min p1.2 p2.2, |p2.1 - p1.1|, |p2.2 - p1.2|⟩

/-- Source function pdfRectToViewportRect: map a PDF rect array through
convertToViewportRectangle and normalize with min/abs. -/
def pdfRectToViewportRect (pdfRectArray : Rect4) (viewport : Transform) : VRect :=
  let rect := convertToViewportRectangle viewport pdfRectArray
  ⟨min rect.x1 rect.x2, min rect.y1 rect.y2, |rect.x2 - rect.x1|, |rect.y2 - rect.y1|⟩

/-- The rect array the self-test and apply path rebuild from a converted
rectangle: the two corners origin and origin plus extents. -/
def rect4Of (r : VRect) : Rect4 :=
  ⟨r.x, r.y, r.x + r.width, r.y + r.height⟩

/-! ### Exact round-trip lemmas

The viewport transform at an axis-aligned rotation is diagonal or
antidiagonal, and on such transforms the min/abs normalization used by the
two conversion functions is exactly inverted by the opposite conversion. -/

lemma min_add_abs_sub (a b : ℚ) : min a b + |b - a| = max a b := by
  rcases le_total a b with h | h
  · rw [min_eq_left h, max_eq_right h, abs_of_nonneg (by linarith)]; ring
  · rw [min_eq_right h, max_eq_left h, abs_of_nonpos (by linarith)]; ring

lemma min_linear_minmax (c e a b : ℚ) :
    min (c * min a b + e) (c * max a b + e) = min (c * a + e) (c * b + e) := by
  rcases le_total a b with h | h
  · rw [min_eq_left h, max_eq_right h]
  · rw [min_eq_right h, max_eq_left h, min_comm]

lemma abs_linear_minmax (c e a b : ℚ) :
    |c * max a b + e - (c * min a b + e)| = |c * b + e - (c * a + e)| := by
  rcases le_total a b with h | h
  · rw [min_eq_left h, max_eq_right h]
  · rw [min_eq_right h, max_eq_left h, abs_sub_comm]

lemma min_affine_minmax (c e a b : ℚ) :
    min ((min a b - e) / c) ((max a b - e) / c) = min ((a - e) / c) ((b - e) / c) := by
  rcases le_total a b with h | h
  · rw [min_eq_left h, max_eq_right h]
  · rw [min_eq_right h, max_eq_left h, min_comm]

lemma abs_affine_minmax (c e a b : ℚ) :
    |(max a b - e) / c - (min a b - e) / c| = |(b - e) / c - (a - e) / c| := by
  rcases le_total a b with h | h
  · rw [min_eq_left h, max_eq_right h]
  · rw [min_eq_right h, max_eq_left h, abs_sub_comm]

lemma convertToPdfPoint_diag (t : Transform) (h1 : t.m1 = 0) (h2 : t.m2 = 0)
    (h0 : t.m0 ≠ 0) (h3 : t.m3 ≠ 0) (x y : ℚ) :
    convertToPdfPoint t x y = ((x - t.m4) / t.m0, (y - t.m5) / t.m3) := by
  simp only [convertToPdfPoint, applyInverseTransform, h1, h2, Prod.mk.injEq,
    mul_zero, zero_mul, sub_zero, add_zero, zero_add, neg_zero]
  constructor <;> (field_simp; ring)

lemma convertToPdfPoint_anti (t : Transform) (h0 : t.m0 = 0) (h3 : t.m3 = 0)
    (hb : t.m1 ≠ 0) (hc : t.m2 ≠ 0) (x y : ℚ) :
    convertToPdfPoint t x y = ((y - t.m5) / t.m1, (x - t.m4) / t.m2) := by
  simp only [convertToPdfPoint, applyInverseTransform, h0, h3, Prod.mk.injEq,
    mul_zero, zero_mul, sub_zero, add_zero, zero_add, zero_sub, neg_zero]
  constructor <;> (field_simp; ring)

lemma applyTransform_diag (t : Transform) (h1 : t.m1 = 0) (h2 : t.m2 = 0)
    (x y : ℚ) : applyTransform t x y = (t.m0 * x + t.m4, t.m3 * y + t.m5) := by
  simp [applyTransform, h1, h2]

lemma applyTransform_anti (t : Transform) (h0 : t.m0 = 0) (h3 : t.m3 = 0)
    (x y : ℚ) : applyTransform t x y = (t.m2 * y + t.m4, t.m1 * x + t.m5) := by
  simp [applyTransform, h0, h3]

lemma roundtrip_vp_diag (t : Transform) (h1 : t.m1 = 0) (h2 : t.m2 = 0)
    (h0 : t.m0 ≠ 0) (h3 : t.m3 ≠ 0) (vx vy vw vh : ℚ) (hw : 0 ≤ vw) (hh : 0 ≤ vh) :
    pdfRectToViewportRect (rect4Of (viewportToPdfRectFromViewportRect vx vy vw vh t)) t
      = ⟨vx, vy, vw, vh⟩ := by
  have e1 : t.m0 * ((vx - t.m4) / t.m0) + t.m4 = vx := by field_simp
  have e2 : t.m0 * ((vx + vw - t.m4) / t.m0) + t.m4 = vx + vw := by field_simp
  have e3 : t.m3 * ((vy - t.m5) / t.m3) + t.m5 = vy := by field_simp
  have e4 : t.m3 * ((vy + vh - t.m5) / t.m3) + t.m5 = vy + vh := by field_simp
  simp only [viewportToPdfRectFromViewportRect, pdfRectToViewportRect, rect4Of,
    convertToViewportRectangle, convertToPdfPoint_diag t h1 h2 h0 h3,
    applyTransform_diag t h1 h2, min_add_abs_sub]
  rw [VRect.mk.injEq]
  refine ⟨?_, ?_, ?_, ?_⟩
  · rw [min_linear_minmax, e1, e2]
    exact min_eq_left (by linarith)
  · rw [min_linear_minmax, e3, e4]
    exact min_eq_left (by linarith)
  · rw [abs_linear_minmax, e1, e2, show vx + vw - vx = vw by ring,
      abs_of_nonneg hw]
  · rw [abs_linear_minmax, e3, e4, show vy + vh - vy = vh by ring,
      abs_of_nonneg hh]

lemma roundtrip_vp_anti (t : Transform) (h0 : t.m0 = 0) (h3 : t.m3 = 0)
    (hb : t.m1 ≠ 0) (hc : t.m2 ≠ 0) (vx vy vw vh : ℚ) (hw : 0 ≤ vw) (hh : 0 ≤ vh) :
    pdfRectToViewportRect (rect4Of (viewportToPdfRectFromViewportRect vx vy vw vh t)) t
      = ⟨vx, vy, vw, vh⟩ := by
  have e1 : t.m2 * ((vx - t.m4) / t.m2) + t.m4 = vx := by field_simp
  have e2 : t.m2 * ((vx + vw - t.m4) / t.m2) + t.m4 = vx + vw := by field_simp
  have e3 : t.m1 * ((vy - t.m5) / t.m1) + t.m5 = vy := by field_simp
  have e4 : t.m1 * ((vy + vh - t.m5) / t.m1) + t.m5 = vy + vh := by field_simp
  simp only [viewportToPdfRectFromViewportRect, pdfRectToViewportRect, rect4Of,
    convertToViewportRectangle, convertToPdfPoint_anti t h0 h3 hb hc,
    applyTransform_anti t h0 h3, min_add_abs_sub]
  rw [VRect.mk.injEq]
  refine ⟨?_, ?_, ?_, ?_⟩
  · rw [min_linear_minmax, e1, e2]
    exact min_eq_left (by linarith)
  · rw [min_linear_minmax, e3, e4]
    exact min_eq_left (by linarith)
  · rw [abs_linear_minmax, e1, e2, show vx + vw - vx = vw by ring,
      abs_of_nonneg hw]
  · rw [abs_linear_minmax, e3, e4, show vy + vh - vy = vh by ring,
      abs_of_nonneg hh]

lemma roundtrip_pdf_diag (t : Transform) (h1 : t.m1 = 0) (h2 : t.m2 = 0)
    (h0 : t.m0 ≠ 0) (h3 : t.m3 ≠ 0) (p : Rect4) (hx : p.x1 ≤ p.x2) (hy : p.y1 ≤ p.y2) :
    (let v := pdfRectToViewportRect p t
     viewportToPdfRectFromViewportRect v.x v.y v.width v.height t)
      = ⟨p.x1, p.y1, p.x2 - p.x1, p.y2 - p.y1⟩ := by
  have e1 : (t.m0 * p.x1 + t.m4 - t.m4) / t.m0 = p.x1 := by field_simp
  have e2 : (t.m0 * p.x2 + t.m4 - t.m4) / t.m0 = p.x2 := by field_simp
  have e3 : (t.m3 * p.y1 + t.m5 - t.m5) / t.m3 = p.y1 := by field_simp
  have e4 : (t.m3 * p.y2 + t.m5 - t.m5) / t.m3 = p.y2 := by field_simp
  simp only [viewportToPdfRectFromViewportRect, pdfRectToViewportRect,
    convertToViewportRectangle, convertToPdfPoint_diag t h1 h2 h0 h3,
    applyTransform_diag t h1 h2, min_add_abs_sub]
  rw [VRect.mk.injEq]
  refine ⟨?_, ?_, ?_, ?_⟩
  · rw [min_affine_minmax, e1, e2]
    exact min_eq_left hx
  · rw [min_affine_minmax, e3, e4]
    exact min_eq_left hy
  · rw [abs_affine_minmax, e1, e2, abs_of_nonneg (by linarith)]
  · rw [abs_affine_minmax, e3, e4, abs_of_nonneg (by linarith)]

lemma roundtrip_pdf_anti (t : Transform) (h0 : t.m0 = 0) (h3 : t.m3 = 0)
    (hb : t.m1 ≠ 0) (hc : t.m2 ≠ 0) (p : Rect4) (hx : p.x1 ≤ p.x2) (hy : p.y1 ≤ p.y2) :
    (let v := pdfRectToViewportRect p t
     viewportToPdfRectFromViewportRect v.x v.y v.width v.height t)
      = ⟨p.x1, p.y1, p.x2 - p.x1, p.y2 - p.y1⟩ := by
  have e1 : (t.m2 * p.y1 + t.m4 - t.m4) / t.m2 = p.y1 := by field_simp
  have e2 : (t.m2 * p.y2 + t.m4 - t.m4) / t.m2 = p.y2 := by field_simp
  have e3 : (t.m1 * p.x1 + t.m5 - t.m5) / t.m1 = p.x1 := by field_simp
  have e4 : (t.m1 * p.x2 + t.m5 - t.m5) / t.m1 = p.x2 := by field_simp
  simp only [viewportToPdfRectFromViewportRect, pdfRectToViewportRect,
    convertToViewportRectangle, convertToPdfPoint_anti t h0 h3 hb hc,
    applyTransform_anti t h0 h3, min_add_abs_sub]
  rw [VRect.mk.injEq]
  refine ⟨?_, ?_, ?_, ?_⟩
  · rw [min_affine_minmax, e3, e4]
    exact min_eq_left hx
  · rw [min_affine_minmax, e1, e2]
    exact min_eq_left hy
  · rw [abs_affine_minmax, e3, e4, abs_of_nonneg (by linarith)]
  · rw [abs_affine_minmax, e1, e2, abs_of_nonneg (by linarith)]

lemma roundtrip_vp_exact (vb : ViewBox) (rot : Rot) (vx vy vw vh : ℚ)
    (hw : 0 ≤ vw) (hh : 0 ≤ vh) :
    pdfRectToViewportRect
        (rect4Of (viewportToPdfRectFromViewportRect vx vy vw vh
          (pageViewport vb (3/2) rot)))
        (pageViewport vb (3/2) rot) = ⟨vx, vy, vw, vh⟩ := by
  cases rot
  · exact roundtrip_vp_diag _ (by simp [pageViewport, rotB]) (by simp [pageViewport, rotC])
      (by simp [pageViewport, rotA]) (by simp [pageViewport, rotD])
      vx vy vw vh hw hh
  · exact roundtrip_vp_anti _ (by simp [pageViewport, rotA]) (by simp [pageViewport, rotD])
      (by simp [pageViewport, rotB]) (by simp [pageViewport, rotC])
      vx vy vw vh hw hh
  · exact roundtrip_vp_diag _ (by simp [pageViewport, rotB]) (by simp [pageViewport, rotC])
      (by simp [pageViewport, rotA]) (by simp [pageViewport, rotD])
      vx vy vw vh hw hh
  · exact roundtrip_vp_anti _ (by simp [pageViewport, rotA]) (by simp [pageViewport, rotD])
      (by simp [pageViewport, rotB]) (by simp [pageViewport, rotC])
      vx vy vw vh hw hh

lemma roundtrip_pdf_exact (vb : ViewBox) (rot : Rot) (p : Rect4)
    (hx : p.x1 ≤ p.x2) (hy : p.y1 ≤ p.y2) :
    (let v := pdfRectToViewportRect p (pageViewport vb (3/2) rot)
     viewportToPdfRectFromViewportRect v.x v.y v.width v.height
       (pageViewport vb (3/2) rot))
      = ⟨p.x1, p.y1, p.x2 - p.x1, p.y2 - p.y1⟩ := by
  cases rot
  · exact roundtrip_pdf_diag _ (by simp [pageViewport, rotB]) (by simp [pageViewport, rotC])
      (by simp [pageViewport, rotA]) (by simp [pageViewport, rotD])
      p hx hy
  · exact roundtrip_pdf_anti _ (by simp [pageViewport, rotA]) (by simp [pageViewport, rotD])
      (by simp [pageViewport, rotB]) (by simp [pageViewport, rotC])
      p hx hy
  · exact roundtrip_pdf_diag _ (by simp [pageViewport, rotB]) (by simp [pageViewport, rotC])
      (by simp [pageViewport, rotA]) (by simp [pageViewport, rotD])
      p hx hy
  · exact roundtrip_pdf_anti _ (by simp [pageViewport, rotA]) (by simp [pageViewport, rotD])
      (by simp [pageViewport, rotB]) (by simp [pageViewport, rotC])
      p hx hy

/-- Claim C1: at scale 1.5 and any axis-aligned rotation, converting a
viewport rectangle to PDF space and back (and likewise a PDF rectangle to
viewport space and back) reproduces the input with aggregate absolute error
over the four components strictly below 0.5; in this exact-arithmetic model
of the viewport the error is in fact zero. -/
theorem viewport_pdf_roundtrip_half_pixel (vb : ViewBox) (rot : Rot)
    (vx vy vw vh : ℚ) (hw : 0 ≤ vw) (hh : 0 ≤ vh)
    (p : Rect4) (hx : p.x1 ≤ p.x2) (hy : p.y1 ≤ p.y2) :
    (let t := pageViewport vb (3/2) rot
     let back := pdfRectToViewportRect
       (rect4Of (viewportToPdfRectFromViewportRect vx vy vw vh t)) t
     |back.x - vx| + |back.y - vy| + |back.width - vw| + |back.height - vh| < 1/2)
    ∧ (let t := pageViewport vb (3/2) rot
       let v := pdfRectToViewportRect p t
       let fwd := viewportToPdfRectFromViewportRect v.x v.y v.width v.height t
       |fwd.x - p.x1| + |fwd.y - p.y1| + |fwd.width - (p.x2 - p.x1)| +
         |fwd.height - (p.y2 - p.y1)| < 1/2) := by
  constructor
  · have h := roundtrip_vp_exact vb rot vx vy vw vh hw hh
    simp only [h]
    norm_num
  · have h := roundtrip_pdf_exact vb rot p hx hy
    simp only at h ⊢
    rw [h]
    norm_num

/-- Witness for claim C1: the concrete round trip of the self-test
(a 612 by 792 page at scale 1.5), here at rotation 90, for the viewport
rectangle (100, 150, 120, 30) and the PDF rect array (72, 660, 88, 676). -/
theorem viewport_pdf_roundtrip_half_pixel_witness :
    (0:ℚ) ≤ 120 ∧ (0:ℚ) ≤ 30 ∧ (72:ℚ) ≤ 88 ∧ (660:ℚ) ≤ 676 ∧
    ((let t := pageViewport ⟨0, 0, 612, 792⟩ (3/2) Rot.r90
      let back := pdfRectToViewportRect
        (rect4Of (viewportToPdfRectFromViewportRect 100 150 120 30 t)) t
      |back.x - 100| + |back.y - 150| + |back.width - 120| + |back.height - 30| < 1/2)
     ∧ (let t := pageViewport ⟨0, 0, 612, 792⟩ (3/2) Rot.r90
        let v := pdfRectToViewportRect ⟨72, 660, 88, 676⟩ t
        let fwd := viewportToPdfRectFromViewportRect v.x v.y v.width v.height t
        |fwd.x - 72| + |fwd.y - 660| + |fwd.width - (88 - 72)| +
          |fwd.height - (676 - 660)| < 1/2)) :=
  ⟨by norm_num, by norm_num, by norm_num, by norm_num,
    viewport_pdf_roundtrip_half_pixel ⟨0, 0, 612, 792⟩ Rot.r90 100 150 120 30
      (by norm_num) (by norm_num) ⟨72, 660, 88, 676⟩ (by norm_num) (by norm_num)⟩

/-! ## Field type canonicalization -/

/-- Character-wise lowering of a string, the behavior of toLowerCase. -/
def jsToLower (s : String) : String :=
  ⟨s.data.map Char.toLower⟩

/-- Case-insensitive substring test for "radio", as
in the source's lowered includes check. -/
def containsRadio (t : String) : Prop :=
  "radio".data <:+: (jsToLower t).data

instance (t : String) : Decidable (containsRadio t) :=
  List.decidableInfix _ _

/-- Source function mapPdfJsFieldType: canonicalize a source field-type code. -/
def mapPdfJsFieldType (t : String) : String :=
  if t = "" then "text"
  else if t = "Tx" then "text"
  else if t = "Ch" then "dropdown"
  else if t = "Sig" then "text"
  else if t = "Btn" then "checkbox"
  else if containsRadio t then "radio" else "text"

/-- The type mapping as the specification words it: the four explicit codes,
then the case-insensitive radio test, then the text default (which also
covers an absent or empty code). -/
def specFieldTypeMap (t : String) : String :=
  if t = "Tx" then "text"
  else if t = "Ch" then "dropdown"
  else if t = "Sig" then "text"
  else if t = "Btn" then "checkbox"
  else if containsRadio t then "radio" else "text"

/-- Claim C4: the field-type canonicalization maps Tx to text, Ch to dropdown,
Sig to text, Btn to checkbox, any other code containing "radio"
case-insensitively to radio, and every remaining code (including the empty
code standing for an absent one) to text. -/
theorem mapPdfJsFieldType_eq_spec (t : String) :
    mapPdfJsFieldType t = specFieldTypeMap t := by
  by_cases h : t = ""
  · subst h; rfl
  · simp only [mapPdfJsFieldType, specFieldTypeMap, if_neg h]

/-! ## Widget extraction -/

/-- A JavaScript value as it appears in overlay and widget value slots:
either a string or a boolean. -/
inductive JSValue where
  | str (s : String)
  | bool (b : Bool)
deriving DecidableEq, Repr

/-- JavaScript truthiness of a value: a string is truthy when non-empty. -/
def JSValue.truthy : JSValue → Bool
  | .str s => if s = "" then false else true
  | .bool b => b

/-- JavaScript String(v) coercion of a value. -/
def JSValue.toStr : JSValue → String
  | .str s => s
  | .bool b => if b then "true" else "false"

/-- The JavaScript or-else on a possibly absent, possibly empty string:
falls through on undefined and on the empty string. -/
def jsOrS (a : Option String) (b : String) : String :=
  match a with
  | none => b
  | some s => if s = "" then b else s

/-- The JavaScript or-else on a plain string: falls through on empty. -/
def jsOrName (s b : String) : String :=
  if s = "" then b else s

/-- A page annot record as the rendering library reports it. -/
structure Annot where
  subtype : String
  fieldType : Option String
  widgetType : Option String
  fieldName : Option String
  alternativeText : Option String
  fieldValue : Option JSValue
  rect : Rect4
deriving DecidableEq, Repr

/-- A loaded page handle: its page box, intrinsic rotation and annots. -/
structure PdfJsPage where
  viewBox : ViewBox
  rotate : Rot
  annots : List Annot
deriving DecidableEq, Repr

/-- A field overlay, the canonical editable record seeded by extraction. -/
structure Overlay where
  id : String
  pageIndex : Nat
  type : String
  name : String
  value : JSValue
  x : ℚ
  y : ℚ
  width : ℚ
  height : ℚ
deriving DecidableEq, Repr

/-- The overlay the extraction loop body builds from one widget annot;
i is the 1-based page number and idx the 0-based index among the page's
widget annots. -/
def overlayOfAnnot (i idx : Nat) (vp : Transform) (a : Annot) : Overlay :=
  let rect := pdfRectToViewportRect a.rect vp
  let t := jsOrS a.fieldType (jsOrS a.widgetType "text")
  let name := jsOrS a.fieldName (jsOrS a.alternativeText
    ("Field_" ++ Nat.repr i ++ "_" ++ Nat.repr idx))
  let value := a.fieldValue.getD (JSValue.str "")
  let mappedType := mapPdfJsFieldType t
  if mappedType = "checkbox" ∨ mappedType = "radio" then
    let s := max 12 (min rect.width rect.height)
    ⟨Nat.repr i ++ "_" ++ Nat.repr idx ++ "_" ++ name, i - 1, mappedType, name,
      value, rect.x, rect.y, s, s⟩
  else
    ⟨Nat.repr i ++ "_" ++ Nat.repr idx ++ "_" ++ name, i - 1, mappedType, name,
      value, rect.x, rect.y, max 40 rect.width, max 20 rect.height⟩

/-- One page of the extraction loop: filter to widget annots and map the
loop body over them with their on-page indices. -/
def extractPageOverlays (i : Nat) (p : PdfJsPage) : List Overlay :=
  let viewport := pageViewport p.viewBox (3/2) p.rotate
  ((p.annots.filter (fun a => a.subtype = "Widget")).enum).map
    (fun x => overlayOfAnnot i x.1 viewport x.2)

/-- Source function extractFieldsWithPdfJs over the list of loaded pages. -/
def extractFieldsWithPdfJs (pages : List PdfJsPage) : List Overlay :=
  (pages.enum.map (fun x => extractPageOverlays (x.1 + 1) x.2)).flatten

lemma overlayOfAnnot_value (i idx : Nat) (vp : Transform) (a : Annot) :
    (overlayOfAnnot i idx vp a).value = a.fieldValue.getD (JSValue.str "") := by
  simp only [overlayOfAnnot]
  split_ifs <;> rfl

lemma overlayOfAnnot_type (i idx : Nat) (vp : Transform) (a : Annot) :
    (overlayOfAnnot i idx vp a).type
      = mapPdfJsFieldType (jsOrS a.fieldType (jsOrS a.widgetType "text")) := by
  simp only [overlayOfAnnot]
  split_ifs <;> rfl

lemma overlayOfAnnot_id (i idx : Nat) (vp : Transform) (a : Annot) :
    (overlayOfAnnot i idx vp a).id
      = Nat.repr i ++ "_" ++ Nat.repr idx ++ "_"
          ++ jsOrS a.fieldName (jsOrS a.alternativeText
            ("Field_" ++ Nat.repr i ++ "_" ++ Nat.repr idx)) := by
  simp only [overlayOfAnnot]
  split_ifs <;> rfl

/-- Claim C3 (amended): extraction clamps checkbox and radio overlays to a
square whose side is the larger of 12 and the smaller converted dimension
(so both dimensions are at least 12, but the larger converted dimension is
not kept); every other type keeps the converted dimensions clamped to at
least 40 wide and 20 tall. -/
theorem extract_min_size_policy (i idx : Nat) (vp : Transform) (a : Annot) :
    ((overlayOfAnnot i idx vp a).type = "checkbox"
        ∨ (overlayOfAnnot i idx vp a).type = "radio" →
      (overlayOfAnnot i idx vp a).width
          = max 12 (min (pdfRectToViewportRect a.rect vp).width
              (pdfRectToViewportRect a.rect vp).height)
        ∧ (overlayOfAnnot i idx vp a).height = (overlayOfAnnot i idx vp a).width
        ∧ 12 ≤ (overlayOfAnnot i idx vp a).width
        ∧ 12 ≤ (overlayOfAnnot i idx vp a).height)
    ∧ ((overlayOfAnnot i idx vp a).type ≠ "checkbox" →
        (overlayOfAnnot i idx vp a).type ≠ "radio" →
      (overlayOfAnnot i idx vp a).width
          = max 40 (pdfRectToViewportRect a.rect vp).width
        ∧ (overlayOfAnnot i idx vp a).height
            = max 20 (pdfRectToViewportRect a.rect vp).height) := by
  rw [overlayOfAnnot_type]
  simp only [overlayOfAnnot]
  split_ifs with h
  · exact ⟨fun _ => ⟨rfl, rfl, le_max_left _ _, le_max_left _ _⟩,
      fun hc hr => absurd h (by simp [hc, hr])⟩
  · exact ⟨fun hor => absurd hor h, fun _ _ => ⟨rfl, rfl⟩⟩

/-- Counterexample to claim C3 as stated: a Btn widget whose converted
rectangle is 20 by 8 viewport pixels is extracted as a 12 by 12 overlay,
not the claimed 20 by 12 (independent clamping would keep the width 20). -/
theorem extract_min_size_policy_cex :
    extractFieldsWithPdfJs
        [⟨⟨0, 0, 100, 100⟩, Rot.r0,
          [⟨"Widget", some "Btn", none, some "cb", none, none,
            ⟨0, 0, 40/3, 16/3⟩⟩]⟩]
      = [⟨"1_0_cb", 0, "checkbox", "cb", JSValue.str "", 0, 142, 12, 12⟩]
    ∧ (pdfRectToViewportRect ⟨0, 0, 40/3, 16/3⟩
        (pageViewport ⟨0, 0, 100, 100⟩ (3/2) Rot.r0)).width = 20 := by
  constructor <;>
    norm_num +decide [extractFieldsWithPdfJs, extractPageOverlays, overlayOfAnnot,
      pageViewport, pdfRectToViewportRect, convertToViewportRectangle,
      applyTransform, convertToPdfPoint, applyInverseTransform,
      jsOrS, mapPdfJsFieldType, rotA, rotB, rotC, rotD, List.enum,
      List.enumFrom, Option.getD, min_def, max_def, abs_eq_max_neg]

/-- Witness for the amended claim C3: a Btn widget takes the checkbox
branch of the size policy and a Tx widget takes the other branch. -/
theorem extract_min_size_policy_witness :
    ((overlayOfAnnot 1 0 (pageViewport ⟨0, 0, 100, 100⟩ (3/2) Rot.r0)
        ⟨"Widget", some "Btn", none, some "w1", none, none, ⟨0, 0, 9, 9⟩⟩).type
          = "checkbox"
      ∨ (overlayOfAnnot 1 0 (pageViewport ⟨0, 0, 100, 100⟩ (3/2) Rot.r0)
        ⟨"Widget", some "Btn", none, some "w1", none, none, ⟨0, 0, 9, 9⟩⟩).type
          = "radio")
    ∧ (overlayOfAnnot 1 0 (pageViewport ⟨0, 0, 100, 100⟩ (3/2) Rot.r0)
        ⟨"Widget", some "Btn", none, some "w1", none, none, ⟨0, 0, 9, 9⟩⟩).width
        = max 12 (min
            (pdfRectToViewportRect ⟨0, 0, 9, 9⟩
              (pageViewport ⟨0, 0, 100, 100⟩ (3/2) Rot.r0)).width
            (pdfRectToViewportRect ⟨0, 0, 9, 9⟩
              (pageViewport ⟨0, 0, 100, 100⟩ (3/2) Rot.r0)).height)
    ∧ (overlayOfAnnot 1 0 (pageViewport ⟨0, 0, 100, 100⟩ (3/2) Rot.r0)
        ⟨"Widget", some "Tx", none, some "w2", none, none, ⟨0, 0, 9, 9⟩⟩).width
        = max 40
            (pdfRectToViewportRect ⟨0, 0, 9, 9⟩
              (pageViewport ⟨0, 0, 100, 100⟩ (3/2) Rot.r0)).width :=
  ⟨by rw [overlayOfAnnot_type]; left; decide,
   ((extract_min_size_policy 1 0 (pageViewport ⟨0, 0, 100, 100⟩ (3/2) Rot.r0)
      ⟨"Widget", some "Btn", none, some "w1", none, none, ⟨0, 0, 9, 9⟩⟩).1
      (by rw [overlayOfAnnot_type]; left; decide)).1,
   ((extract_min_size_policy 1 0 (pageViewport ⟨0, 0, 100, 100⟩ (3/2) Rot.r0)
      ⟨"Widget", some "Tx", none, some "w2", none, none, ⟨0, 0, 9, 9⟩⟩).2
      (by rw [overlayOfAnnot_type]; decide)
      (by rw [overlayOfAnnot_type]; decide)).1⟩

/-- Claim C5 (amended): an extracted overlay's value is the widget's field
value when one is present, and the empty string otherwise, regardless of the
overlay's canonical type (checkbox and radio overlays with an absent field
value also get the empty string, not the boolean false). -/
theorem extract_value_policy (i idx : Nat) (vp : Transform) (a : Annot) :
    (∃ v, a.fieldValue = some v ∧ (overlayOfAnnot i idx vp a).value = v)
    ∨ (a.fieldValue = none
        ∧ (overlayOfAnnot i idx vp a).value = JSValue.str "") := by
  rw [overlayOfAnnot_value]
  cases hv : a.fieldValue with
  | none => exact Or.inr ⟨rfl, rfl⟩
  | some v => exact Or.inl ⟨v, rfl, rfl⟩

/-- Counterexample to claim C5 as stated: a Btn widget with no field value
is extracted as a checkbox overlay whose value is the empty string, not the
boolean false the claim requires for checkbox overlays. -/
theorem extract_value_policy_cex :
    extractFieldsWithPdfJs
        [⟨⟨0, 0, 100, 100⟩, Rot.r0,
          [⟨"Widget", some "Btn", none, none, none, none, ⟨0, 0, 20, 20⟩⟩]⟩]
      = [⟨"1_0_Field_1_0", 0, "checkbox", "Field_1_0", JSValue.str "",
          0, 120, 30, 30⟩]
    ∧ JSValue.str "" ≠ JSValue.bool false := by
  refine ⟨?_, by simp⟩
  norm_num +decide [extractFieldsWithPdfJs, extractPageOverlays, overlayOfAnnot,
    pageViewport, pdfRectToViewportRect, convertToViewportRectangle,
    applyTransform, convertToPdfPoint, applyInverseTransform,
    jsOrS, mapPdfJsFieldType, rotA, rotB, rotC, rotD, List.enum,
    List.enumFrom, Option.getD, min_def, max_def, abs_eq_max_neg]

/-! ## Uniqueness of extracted overlay ids

The id of every extracted overlay is pageNumber_indexOnPage_name in decimal.
Decimal digit runs contain no underscore, so the page number and on-page
index are recoverable from the id, and distinct (page, index) pairs give
distinct ids. -/

/-- Structural decimal digit list of a natural number, most significant
digit first, agreeing with the digits the runtime's decimal printer emits. -/
def decDigits (n : Nat) : List Char :=
  if h : n / 10 = 0 then [Nat.digitChar (n % 10)]
  else decDigits (n / 10) ++ [Nat.digitChar (n % 10)]
termination_by n
decreasing_by
  have h10 : 10 ≤ n := by
    rcases Nat.lt_or_ge n 10 with hlt | hge
    · exact absurd (Nat.div_eq_of_lt hlt) h
    · exact hge
  exact Nat.div_lt_self (by omega) (by omega)

/-- Decimal value of a digit list, most significant digit first. -/
def digitsVal (l : List Char) : Nat :=
  l.foldl (fun acc c => acc * 10 + (c.toNat - 48)) 0

lemma digitChar_toNat_sub (k : Nat) (h : k < 10) :
    (Nat.digitChar k).toNat - 48 = k := by
  interval_cases k <;> decide

lemma digitChar_ne_underscore (k : Nat) (h : k < 10) : Nat.digitChar k ≠ '_' := by
  interval_cases k <;> decide

lemma digitsVal_decDigits (n : Nat) : digitsVal (decDigits n) = n := by
  induction n using Nat.strong_induction_on with
  | _ n ih =>
    rw [decDigits]
    split_ifs with h
    · have hm : n % 10 < 10 := Nat.mod_lt _ (by omega)
      have hdm := Nat.div_add_mod n 10
      have hlt : n < 10 := by omega
      simp [digitsVal, Nat.mod_eq_of_lt hlt, digitChar_toNat_sub n hlt]
    · have hm : n % 10 < 10 := Nat.mod_lt _ (by omega)
      have hdm := Nat.div_add_mod n 10
      have h10 : 10 ≤ n := by omega
      have hlt : n / 10 < n := Nat.div_lt_self (by omega) (by omega)
      have := ih (n / 10) hlt
      simp only [digitsVal, List.foldl_append] at this ⊢
      simp only [List.foldl_cons, List.foldl_nil]
      rw [this, digitChar_toNat_sub (n % 10) (Nat.mod_lt _ (by omega))]
      omega

lemma decDigits_no_underscore (n : Nat) : '_' ∉ decDigits n := by
  induction n using Nat.strong_induction_on with
  | _ n ih =>
    rw [decDigits]
    split_ifs with h
    · simp only [List.mem_singleton]
      exact fun hc => digitChar_ne_underscore (n % 10) (Nat.mod_lt _ (by omega)) hc.symm
    · have hm : n % 10 < 10 := Nat.mod_lt _ (by omega)
      have hdm := Nat.div_add_mod n 10
      have h10 : 10 ≤ n := by omega
      have hlt : n / 10 < n := Nat.div_lt_self (by omega) (by omega)
      simp only [List.mem_append, List.mem_singleton]
      rintro (hc | hc)
      · exact ih (n / 10) hlt hc
      · exact digitChar_ne_underscore (n % 10) (Nat.mod_lt _ (by omega)) hc.symm

lemma toDigitsCore_eq_decDigits :
    ∀ (fuel n : Nat) (ds : List Char), n < fuel →
      Nat.toDigitsCore 10 fuel n ds = decDigits n ++ ds := by
  intro fuel
  induction fuel with
  | zero => intro n ds h; omega
  | succ f ihf =>
    intro n ds h
    rw [Nat.toDigitsCore]
    by_cases h0 : n / 10 = 0
    · rw [if_pos h0, decDigits, dif_pos h0]
      rfl
    · have hm : n % 10 < 10 := Nat.mod_lt _ (by omega)
      have hdm := Nat.div_add_mod n 10
      have h10 : 10 ≤ n := by omega
      have hlt : n / 10 < n := Nat.div_lt_self (by omega) (by omega)
      rw [if_neg h0, ihf (n / 10) _ (by omega)]
      conv_rhs => rw [decDigits]
      rw [dif_neg h0]
      simp

lemma repr_data_eq_decDigits (n : Nat) : (Nat.repr n).data = decDigits n := by
  show (Nat.toDigits 10 n).asString.data = decDigits n
  rw [Nat.toDigits, show ∀ l : List Char, l.asString.data = l from fun _ => rfl,
    toDigitsCore_eq_decDigits (n + 1) n [] (Nat.lt_succ_self n), List.append_nil]

lemma nat_repr_inj {m n : Nat} (h : Nat.repr m = Nat.repr n) : m = n := by
  have hd : decDigits m = decDigits n := by
    rw [← repr_data_eq_decDigits, ← repr_data_eq_decDigits, h]
  have hv := congrArg digitsVal hd
  rwa [digitsVal_decDigits, digitsVal_decDigits] at hv

lemma repr_no_underscore (n : Nat) : '_' ∉ (Nat.repr n).data := by
  rw [repr_data_eq_decDigits]
  exact decDigits_no_underscore n

lemma append_underscore_inj :
    ∀ (a b c d : List Char), '_' ∉ a → '_' ∉ c →
      a ++ '_' :: b = c ++ '_' :: d → a = c ∧ b = d := by
  intro a
  induction a with
  | nil =>
    intro b c d _ hc h
    cases c with
    | nil => simpa using h
    | cons y ys =>
      simp only [List.nil_append, List.cons_append, List.cons.injEq] at h
      exact absurd (h.1 ▸ List.mem_cons_self y ys) (h.1 ▸ hc)
  | cons x xs ih =>
    intro b c d ha hc h
    cases c with
    | nil =>
      simp only [List.cons_append, List.nil_append, List.cons.injEq] at h
      exact absurd (h.1 ▸ List.mem_cons_self x xs) (by rw [h.1] at ha; exact ha)
    | cons y ys =>
      simp only [List.cons_append, List.cons.injEq] at h
      obtain ⟨hxy, htail⟩ := h
      obtain ⟨h1, h2⟩ := ih b ys d (fun hm => ha (List.mem_cons_of_mem x hm))
        (fun hm => hc (List.mem_cons_of_mem y hm)) htail
      exact ⟨by rw [hxy, h1], h2⟩

/-- The id encoding of the extraction loop: pageNumber, on-page index and
name joined by underscores, numbers in decimal. -/
def mkId (i idx : Nat) (name : String) : String :=
  Nat.repr i ++ "_" ++ Nat.repr idx ++ "_" ++ name

lemma mkId_inj {i j idx jdx : Nat} {n m : String}
    (h : mkId i idx n = mkId j jdx m) : i = j ∧ idx = jdx ∧ n = m := by
  have hd := congrArg String.data h
  simp only [mkId, String.data_append,
    show ("_" : String).data = ['_'] from rfl, List.append_assoc,
    List.singleton_append] at hd
  obtain ⟨h1, h2⟩ := append_underscore_inj _ _ _ _
    (repr_no_underscore i) (repr_no_underscore j) hd
  obtain ⟨h3, h4⟩ := append_underscore_inj _ _ _ _
    (repr_no_underscore idx) (repr_no_underscore jdx) h2
  exact ⟨nat_repr_inj (String.ext h1), nat_repr_inj (String.ext h3),
    String.ext h4⟩

lemma overlayOfAnnot_id_mkId (i idx : Nat) (vp : Transform) (a : Annot) :
    (overlayOfAnnot i idx vp a).id
      = mkId i idx (jsOrS a.fieldName (jsOrS a.alternativeText
          ("Field_" ++ Nat.repr i ++ "_" ++ Nat.repr idx))) :=
  overlayOfAnnot_id i idx vp a

lemma mem_enumFrom_fst_ge {α : Type} :
    ∀ (l : List α) (n : Nat) (p : Nat × α), p ∈ l.enumFrom n → n ≤ p.1 := by
  intro l
  induction l with
  | nil => simp
  | cons x xs ih =>
    intro n p hp
    rw [List.enumFrom_cons] at hp
    rcases List.mem_cons.mp hp with h | h
    · rw [h]
    · exact le_trans (Nat.le_succ n) (ih (n + 1) p h)

lemma enumFrom_pairwise_fst_lt {α : Type} :
    ∀ (l : List α) (n : Nat),
      (l.enumFrom n).Pairwise (fun p q => p.1 < q.1) := by
  intro l
  induction l with
  | nil => simp
  | cons x xs ih =>
    intro n
    rw [List.enumFrom_cons]
    refine List.Pairwise.cons ?_ (ih (n + 1))
    intro q hq
    exact lt_of_lt_of_le (Nat.lt_succ_self n) (mem_enumFrom_fst_ge xs (n + 1) q hq)

lemma enum_pairwise_fst_lt {α : Type} (l : List α) :
    l.enum.Pairwise (fun p q => p.1 < q.1) :=
  enumFrom_pairwise_fst_lt l 0

lemma pageIds_nodup (i : Nat) (p : PdfJsPage) :
    ((extractPageOverlays i p).map Overlay.id).Nodup := by
  unfold extractPageOverlays
  rw [List.map_map, List.Nodup, List.pairwise_map]
  refine List.Pairwise.imp ?_ (enum_pairwise_fst_lt _)
  intro x y hlt heq
  simp only [Function.comp_apply, overlayOfAnnot_id_mkId] at heq
  exact absurd ((mkId_inj heq).2.1 ▸ hlt) (lt_irrefl _)

lemma mem_pageIds (i : Nat) (p : PdfJsPage) (s : String)
    (h : s ∈ (extractPageOverlays i p).map Overlay.id) :
    ∃ idx nm, s = mkId i idx nm := by
  simp only [extractPageOverlays, List.map_map, List.mem_map,
    Function.comp_apply] at h
  obtain ⟨x, _, hx⟩ := h
  refine ⟨x.1, jsOrS x.2.fieldName (jsOrS x.2.alternativeText
    ("Field_" ++ Nat.repr i ++ "_" ++ Nat.repr x.1)), ?_⟩
  rw [← hx]
  exact overlayOfAnnot_id_mkId i x.1 _ x.2

/-- Claim C9: within one extraction run the ids of all produced overlays
are pairwise distinct, for every page list and any widget annots per
page. -/
theorem extract_ids_nodup (pages : List PdfJsPage) :
    ((extractFieldsWithPdfJs pages).map Overlay.id).Nodup := by
  unfold extractFieldsWithPdfJs
  rw [List.map_flatten, List.nodup_flatten]
  constructor
  · intro l' hl'
    simp only [List.map_map, List.mem_map] at hl'
    obtain ⟨x, _, hx⟩ := hl'
    rw [← hx]
    exact pageIds_nodup (x.1 + 1) x.2
  · rw [List.map_map, List.pairwise_map]
    refine List.Pairwise.imp ?_ (enum_pairwise_fst_lt pages)
    intro x y hlt
    intro s hsx hsy
    simp only [Function.comp_apply] at hsx hsy
    obtain ⟨ix, nx, hx⟩ := mem_pageIds (x.1 + 1) x.2 s hsx
    obtain ⟨iy, ny, hy⟩ := mem_pageIds (y.1 + 1) y.2 s hsy
    have := (mkId_inj (hx ▸ hy ▸ rfl : mkId (x.1 + 1) ix nx = mkId (y.1 + 1) iy ny)).1
    omega

/-! ## Field re-application

applyFields loads the flattened bytes, walks the overlay list in order and
creates one form field per overlay of a known type.  The mutable document is
modelled by the list of fields created so far; a JavaScript exception
anywhere in the loop aborts the whole call before any bytes are saved, which
the model renders as an Except error. -/

/-- The exceptions the apply loop can raise: a property access on an
undefined page handle (the overlay's pageIndex is outside the supplied
page-handle list), placing a field on an undefined target page (the
pageIndex is outside the byte-document's page count), and the form
library's duplicate-field-name error on field creation. -/
inductive JsErr where
  | viewportOfUndefined
  | pageUndefined
  | fieldExists (n : String)
deriving DecidableEq, Repr

/-- One form field of the freshly authored output form. -/
structure CreatedField where
  kind : String
  name : String
  pageIdx : Nat
  x : ℚ
  y : ℚ
  width : ℚ
  height : ℚ
  textValue : Option String
  checked : Option Bool
  radioSel : Bool
deriving DecidableEq, Repr

/-- Whether a field of the given fully qualified name already exists. -/
def hasFieldNamed (fields : List CreatedField) (n : String) : Bool :=
  fields.any (fun f => f.name = n)

/-- The text field record the text/date/dropdown branch creates. -/
def textFieldOf (nm : String) (pi : Nat) (r : VRect) (v : JSValue) : CreatedField :=
  ⟨"text", nm, pi, r.x, r.y, r.width, r.height,
    if v.truthy then some v.toStr else none, none, false⟩

/-- The checkbox record: both dimensions are the single square side
max 12 (min width height) of the converted rectangle. -/
def checkboxFieldOf (nm : String) (pi : Nat) (r : VRect) (v : JSValue) : CreatedField :=
  let s := max 12 (min r.width r.height)
  ⟨"checkbox", nm, pi, r.x, r.y, s, s, none, some v.truthy, false⟩

/-- The radio-group record with its single option named on; the same
square side as the checkbox branch. -/
def radioFieldOf (nm : String) (pi : Nat) (r : VRect) (v : JSValue) : CreatedField :=
  let s := max 12 (min r.width r.height)
  ⟨"radio", nm, pi, r.x, r.y, s, s, none, none, v.truthy⟩

/-- Create a field of the given name and place it on the resolved target
page: creation raises the library's duplicate-name error if the name is
taken, and placement raises if the target page handle is undefined. -/
def createAndPlace (acc : List CreatedField) (nm : String) (targ : Option Nat)
    (mk : Nat → CreatedField) : Except JsErr (List CreatedField) :=
  if hasFieldNamed acc nm then .error (.fieldExists nm)
  else
    match targ with
    | none => .error .pageUndefined
    | some pi => .ok (acc ++ [mk pi])

/-- The loop body of applyFields for a single overlay.  Accessing the
page-handle list out of range yields an undefined value whose getViewport
access throws; an out-of-range index into the byte-document's pages yields
an undefined target page. -/
def applyOne (pageCount : Nat) (pages : List PdfJsPage) (acc : List CreatedField)
    (ov : Overlay) : Except JsErr (List CreatedField) :=
  match pages.get? ov.pageIndex with
  | none => .error .viewportOfUndefined
  | some pg =>
    let viewport := pageViewport pg.viewBox (3/2) pg.rotate
    let r := viewportToPdfRectFromViewportRect ov.x ov.y ov.width ov.height viewport
    let targ : Option Nat :=
      if ov.pageIndex < pageCount then some ov.pageIndex else none
    if ov.type = "text" ∨ ov.type = "date" ∨ ov.type = "dropdown" then
      createAndPlace acc (jsOrName ov.name ("Text_" ++ ov.id)) targ
        (fun pi => textFieldOf (jsOrName ov.name ("Text_" ++ ov.id)) pi r ov.value)
    else if ov.type = "checkbox" then
      createAndPlace acc (jsOrName ov.name ("Check_" ++ ov.id)) targ
        (fun pi => checkboxFieldOf (jsOrName ov.name ("Check_" ++ ov.id)) pi r ov.value)
    else if ov.type = "radio" then
      createAndPlace acc (jsOrName ov.name ("Radio_" ++ ov.id)) targ
        (fun pi => radioFieldOf (jsOrName ov.name ("Radio_" ++ ov.id)) pi r ov.value)
    else .ok acc

/-- The overlay loop of applyFields, threading the created fields. -/
def applyGo (pageCount : Nat) (pages : List PdfJsPage) :
    List Overlay → List CreatedField → Except JsErr (List CreatedField)
  | [], acc => .ok acc
  | ov :: rest, acc =>
    match applyOne pageCount pages acc ov with
    | .error e => .error e
    | .ok acc₂ => applyGo pageCount pages rest acc₂

/-- Source function applyFields: on success the value is the list of fields
the saved output bytes contain; an error means the promise rejected and no
output bytes were produced. -/
def applyFields (pageCount : Nat) (overlays : List Overlay)
    (pages : List PdfJsPage) : Except JsErr (List CreatedField) :=
  applyGo pageCount pages overlays []

/-- The five overlay types for which applyFields creates a field. -/
def knownType (t : String) : Prop :=
  t = "text" ∨ t = "date" ∨ t = "dropdown" ∨ t = "checkbox" ∨ t = "radio"

instance (t : String) : Decidable (knownType t) := by
  unfold knownType
  infer_instance

lemma createAndPlace_ok {acc : List CreatedField} {nm : String} {targ : Option Nat}
    {mk : Nat → CreatedField} {res : List CreatedField}
    (h : createAndPlace acc nm targ mk = .ok res) :
    ∃ pi, targ = some pi ∧ res = acc ++ [mk pi] := by
  unfold createAndPlace at h
  split_ifs at h
  cases htarg : targ with
  | none => rw [htarg] at h; exact absurd h (by simp)
  | some pi =>
    rw [htarg] at h
    simp only [Except.ok.injEq] at h
    exact ⟨pi, rfl, h.symm⟩

lemma typePrefix_text (t : String) (ht : t = "text" ∨ t = "date" ∨ t = "dropdown") :
    (if t = "checkbox" then "Check_"
     else if t = "radio" then "Radio_" else "Text_") = "Text_" := by
  rcases ht with h | h | h <;> subst h <;> decide

/-- Claim C8: whenever applyFields creates a field for an overlay, the
field's name is the overlay's name when non-empty, and otherwise the
synthesized TypePrefix_overlayId name: Text_ for text, date and dropdown,
Check_ for checkbox, Radio_ for radio. -/
theorem apply_field_naming (pageCount : Nat) (pages : List PdfJsPage)
    (acc : List CreatedField) (ov : Overlay) (f : CreatedField)
    (h : applyOne pageCount pages acc ov = .ok (acc ++ [f])) :
    f.name = (if ov.name = "" then
        (if ov.type = "checkbox" then "Check_"
         else if ov.type = "radio" then "Radio_" else "Text_") ++ ov.id
      else ov.name) := by
  cases hpg : pages.get? ov.pageIndex with
  | none =>
    unfold applyOne at h
    rw [hpg] at h
    exact absurd h (by simp)
  | some pg =>
    unfold applyOne at h
    rw [hpg] at h
    dsimp only at h
    by_cases ht : ov.type = "text" ∨ ov.type = "date" ∨ ov.type = "dropdown"
    · rw [if_pos ht] at h
      obtain ⟨pi, _, hres⟩ := createAndPlace_ok h
      have hf : f = textFieldOf (jsOrName ov.name ("Text_" ++ ov.id)) pi _ ov.value :=
        List.singleton_injective (List.append_cancel_left hres)
      rw [hf, typePrefix_text ov.type ht]
      rfl
    · rw [if_neg ht] at h
      by_cases hc : ov.type = "checkbox"
      · rw [if_pos hc] at h
        obtain ⟨pi, _, hres⟩ := createAndPlace_ok h
        have hf : f = checkboxFieldOf (jsOrName ov.name ("Check_" ++ ov.id)) pi _ ov.value :=
          List.singleton_injective (List.append_cancel_left hres)
        rw [hf, if_pos hc]
        rfl
      · rw [if_neg hc] at h
        by_cases hr : ov.type = "radio"
        · rw [if_pos hr] at h
          obtain ⟨pi, _, hres⟩ := createAndPlace_ok h
          have hf : f = radioFieldOf (jsOrName ov.name ("Radio_" ++ ov.id)) pi _ ov.value :=
            List.singleton_injective (List.append_cancel_left hres)
          rw [hf, if_neg hc, if_pos hr]
          rfl
        · rw [if_neg hr] at h
          simp at h

/-- Witness for claim C8: a checkbox overlay with an empty name yields the
synthesized name Check_ov7, and a text overlay with a non-empty name keeps
its own name. -/
theorem apply_field_naming_witness :
    (applyOne 1 [⟨⟨0, 0, 100, 100⟩, Rot.r0, []⟩] []
        ⟨"ov7", 0, "checkbox", "", JSValue.bool true, 0, 0, 30, 12⟩
      = .ok ([] ++ [checkboxFieldOf ("Check_" ++ "ov7") 0
          (viewportToPdfRectFromViewportRect 0 0 30 12
            (pageViewport ⟨0, 0, 100, 100⟩ (3/2) Rot.r0)) (JSValue.bool true)]))
    ∧ (checkboxFieldOf ("Check_" ++ "ov7") 0
        (viewportToPdfRectFromViewportRect 0 0 30 12
          (pageViewport ⟨0, 0, 100, 100⟩ (3/2) Rot.r0)) (JSValue.bool true)).name
      = (if ("" : String) = "" then
          (if ("checkbox" : String) = "checkbox" then "Check_"
           else if ("checkbox" : String) = "radio" then "Radio_" else "Text_")
            ++ "ov7"
        else "") :=
  have happ : applyOne 1 [⟨⟨0, 0, 100, 100⟩, Rot.r0, []⟩] []
      ⟨"ov7", 0, "checkbox", "", JSValue.bool true, 0, 0, 30, 12⟩
      = .ok ([] ++ [checkboxFieldOf ("Check_" ++ "ov7") 0
          (viewportToPdfRectFromViewportRect 0 0 30 12
            (pageViewport ⟨0, 0, 100, 100⟩ (3/2) Rot.r0)) (JSValue.bool true)]) := by
    unfold applyOne createAndPlace
    norm_num +decide [jsOrName, hasFieldNamed]
  ⟨happ, apply_field_naming 1 [⟨⟨0, 0, 100, 100⟩, Rot.r0, []⟩] []
      ⟨"ov7", 0, "checkbox", "", JSValue.bool true, 0, 0, 30, 12⟩ _ happ⟩

/-- Claim C2 (amended): a checkbox or radio overlay is stored as a square
field whose side is max 12 (min width height) of the converted PDF
rectangle; in particular both stored dimensions are always at least 12, but
a 20 by 8 converted rectangle is stored as 12 by 12, not 20 by 12. -/
theorem apply_tick_min_size (pageCount : Nat) (pages : List PdfJsPage)
    (acc : List CreatedField) (ov : Overlay) (pg : PdfJsPage) (f : CreatedField)
    (hpg : pages.get? ov.pageIndex = some pg)
    (ht : ov.type = "checkbox" ∨ ov.type = "radio")
    (h : applyOne pageCount pages acc ov = .ok (acc ++ [f])) :
    f.width = max 12 (min
        (viewportToPdfRectFromViewportRect ov.x ov.y ov.width ov.height
          (pageViewport pg.viewBox (3/2) pg.rotate)).width
        (viewportToPdfRectFromViewportRect ov.x ov.y ov.width ov.height
          (pageViewport pg.viewBox (3/2) pg.rotate)).height)
    ∧ f.height = f.width ∧ 12 ≤ f.width ∧ 12 ≤ f.height := by
  unfold applyOne at h
  rw [hpg] at h
  dsimp only at h
  have hnt : ¬(ov.type = "text" ∨ ov.type = "date" ∨ ov.type = "dropdown") := by
    rcases ht with hv | hv <;> rw [hv] <;> decide
  rw [if_neg hnt] at h
  rcases ht with hv | hv
  · rw [if_pos hv] at h
    obtain ⟨pi, _, hres⟩ := createAndPlace_ok h
    have hf : f = checkboxFieldOf (jsOrName ov.name ("Check_" ++ ov.id)) pi _ ov.value :=
      List.singleton_injective (List.append_cancel_left hres)
    rw [hf]
    exact ⟨rfl, rfl, le_max_left _ _, le_max_left _ _⟩
  · rw [if_neg (by rw [hv]; decide), if_pos hv] at h
    obtain ⟨pi, _, hres⟩ := createAndPlace_ok h
    have hf : f = radioFieldOf (jsOrName ov.name ("Radio_" ++ ov.id)) pi _ ov.value :=
      List.singleton_injective (List.append_cancel_left hres)
    rw [hf]
    exact ⟨rfl, rfl, le_max_left _ _, le_max_left _ _⟩

/-- Counterexample to claim C2 as stated: a checkbox overlay whose converted
PDF rectangle is 20 by 8 points is stored as a 12 by 12 field, not the
20 by 12 the claim predicts for independent clamping. -/
theorem apply_tick_min_size_cex :
    applyFields 1 [⟨"o1", 0, "checkbox", "cb", JSValue.bool false, 0, 0, 30, 12⟩]
        [⟨⟨0, 0, 100, 100⟩, Rot.r0, []⟩]
      = .ok [⟨"checkbox", "cb", 0, 0, 92, 12, 12, none, some false, false⟩]
    ∧ (viewportToPdfRectFromViewportRect 0 0 30 12
        (pageViewport ⟨0, 0, 100, 100⟩ (3/2) Rot.r0)).width = 20
    ∧ (viewportToPdfRectFromViewportRect 0 0 30 12
        (pageViewport ⟨0, 0, 100, 100⟩ (3/2) Rot.r0)).height = 8
    ∧ (12 : ℚ) ≠ 20 := by
  refine ⟨?_, ?_, ?_, by norm_num⟩ <;>
    norm_num +decide [applyFields, applyGo, applyOne, createAndPlace,
      checkboxFieldOf, hasFieldNamed, jsOrName, JSValue.truthy,
      viewportToPdfRectFromViewportRect, convertToPdfPoint,
      applyInverseTransform, pageViewport, rotA, rotB, rotC, rotD,
      min_def, max_def, abs_eq_max_neg]

/-- Witness for the amended claim C2: a radio overlay on a concrete page,
stored as the square max 12 (min converted-width converted-height). -/
theorem apply_tick_min_size_witness :
    ([⟨⟨0, 0, 100, 100⟩, Rot.r0, []⟩] : List PdfJsPage).get? 0
        = some ⟨⟨0, 0, 100, 100⟩, Rot.r0, []⟩
    ∧ (("radio" : String) = "checkbox" ∨ ("radio" : String) = "radio")
    ∧ ((radioFieldOf "rr" 0 (viewportToPdfRectFromViewportRect 0 0 30 12
          (pageViewport ⟨0, 0, 100, 100⟩ (3/2) Rot.r0)) (JSValue.bool true)).width
        = max 12 (min
            (viewportToPdfRectFromViewportRect 0 0 30 12
              (pageViewport ⟨0, 0, 100, 100⟩ (3/2) Rot.r0)).width
            (viewportToPdfRectFromViewportRect 0 0 30 12
              (pageViewport ⟨0, 0, 100, 100⟩ (3/2) Rot.r0)).height)
      ∧ (radioFieldOf "rr" 0 (viewportToPdfRectFromViewportRect 0 0 30 12
            (pageViewport ⟨0, 0, 100, 100⟩ (3/2) Rot.r0)) (JSValue.bool true)).height
          = (radioFieldOf "rr" 0 (viewportToPdfRectFromViewportRect 0 0 30 12
            (pageViewport ⟨0, 0, 100, 100⟩ (3/2) Rot.r0)) (JSValue.bool true)).width
      ∧ 12 ≤ (radioFieldOf "rr" 0 (viewportToPdfRectFromViewportRect 0 0 30 12
            (pageViewport ⟨0, 0, 100, 100⟩ (3/2) Rot.r0)) (JSValue.bool true)).width
      ∧ 12 ≤ (radioFieldOf "rr" 0 (viewportToPdfRectFromViewportRect 0 0 30 12
            (pageViewport ⟨0, 0, 100, 100⟩ (3/2) Rot.r0)) (JSValue.bool true)).height) :=
  have happ : applyOne 1 [⟨⟨0, 0, 100, 100⟩, Rot.r0, []⟩] []
      ⟨"o2", 0, "radio", "rr", JSValue.bool true, 0, 0, 30, 12⟩
      = .ok ([] ++ [radioFieldOf "rr" 0 (viewportToPdfRectFromViewportRect 0 0 30 12
          (pageViewport ⟨0, 0, 100, 100⟩ (3/2) Rot.r0)) (JSValue.bool true)]) := by
    unfold applyOne createAndPlace
    norm_num +decide [jsOrName, hasFieldNamed]
  ⟨rfl, Or.inr rfl,
    apply_tick_min_size 1 [⟨⟨0, 0, 100, 100⟩, Rot.r0, []⟩] []
      ⟨"o2", 0, "radio", "rr", JSValue.bool true, 0, 0, 30, 12⟩
      ⟨⟨0, 0, 100, 100⟩, Rot.r0, []⟩ _ rfl (Or.inr rfl) happ⟩

/-! ### Out-of-range page indices (claim C6) -/

lemma createAndPlace_none_errors (acc : List CreatedField) (nm : String)
    (mk : Nat → CreatedField) :
    ∃ e, createAndPlace acc nm none mk = .error e := by
  unfold createAndPlace
  split_ifs <;> exact ⟨_, rfl⟩

lemma applyOne_bad_errors (pageCount : Nat) (pages : List PdfJsPage)
    (acc : List CreatedField) (ov : Overlay)
    (h : pages.length ≤ ov.pageIndex
      ∨ (pageCount ≤ ov.pageIndex ∧ knownType ov.type)) :
    ∃ e, applyOne pageCount pages acc ov = .error e := by
  rcases h with h | ⟨hpc, hk⟩
  · refine ⟨.viewportOfUndefined, ?_⟩
    unfold applyOne
    rw [List.get?_eq_none.mpr h]
  · cases hpg : pages.get? ov.pageIndex with
    | none => exact ⟨.viewportOfUndefined, by unfold applyOne; rw [hpg]⟩
    | some pg =>
      unfold applyOne
      rw [hpg]
      dsimp only
      rw [if_neg (show ¬ov.pageIndex < pageCount by omega)]
      split_ifs with h1 h2 h3
      · exact createAndPlace_none_errors _ _ _
      · exact createAndPlace_none_errors _ _ _
      · exact createAndPlace_none_errors _ _ _
      · rcases hk with hv | hv | hv | hv | hv
        · exact absurd (Or.inl hv) h1
        · exact absurd (Or.inr (Or.inl hv)) h1
        · exact absurd (Or.inr (Or.inr hv)) h1
        · exact absurd hv h2
        · exact absurd hv h3

lemma applyGo_error_of_exists (pageCount : Nat) (pages : List PdfJsPage) :
    ∀ (ovs : List Overlay) (acc : List CreatedField),
      (∃ ov ∈ ovs, pages.length ≤ ov.pageIndex
        ∨ (pageCount ≤ ov.pageIndex ∧ knownType ov.type)) →
      ∃ e, applyGo pageCount pages ovs acc = .error e := by
  intro ovs
  induction ovs with
  | nil => simp
  | cons ov rest ih =>
    intro acc h
    cases happ : applyOne pageCount pages acc ov with
    | error e => exact ⟨e, by simp [applyGo, happ]⟩
    | ok acc₂ =>
      rcases h with ⟨ov₃, hmem, hbad⟩
      rcases List.mem_cons.mp hmem with heq | hmem₃
      · obtain ⟨e, he⟩ := applyOne_bad_errors pageCount pages acc ov (heq ▸ hbad)
        rw [happ] at he
        exact absurd he (by simp)
      · obtain ⟨e, he⟩ := ih acc₂ ⟨ov₃, hmem₃, hbad⟩
        exact ⟨e, by simp [applyGo, happ, he]⟩

/-- Claim C6 (amended): applyFields fails with an error and produces no
output bytes whenever some overlay's pageIndex is out of range for the
page-handle list, or is out of range for the byte-document's page count and
the overlay has one of the five known types.  (An unknown-type overlay whose
index is only beyond the byte-document's page count is silently skipped
instead, see the counterexample.) -/
theorem apply_out_of_range_fails (pageCount : Nat) (pages : List PdfJsPage)
    (ovs : List Overlay)
    (h : ∃ ov ∈ ovs, pages.length ≤ ov.pageIndex
      ∨ (pageCount ≤ ov.pageIndex ∧ knownType ov.type)) :
    ∃ e, applyFields pageCount ovs pages = .error e :=
  applyGo_error_of_exists pageCount pages ovs [] h

/-- Counterexample to claim C6 as stated: an overlay of unknown type whose
pageIndex 1 is outside the one-page byte-document but inside the two-entry
page-handle list is skipped, and the apply call succeeds with output bytes
instead of failing. -/
theorem apply_out_of_range_fails_cex :
    applyFields 1 [⟨"u1", 1, "pushbutton", "", JSValue.str "", 0, 0, 10, 10⟩]
        [⟨⟨0, 0, 100, 100⟩, Rot.r0, []⟩, ⟨⟨0, 0, 100, 100⟩, Rot.r0, []⟩]
      = .ok []
    ∧ (1 : Nat) ≤ 1 := by
  exact ⟨rfl, le_refl 1⟩

/-- Witness for the amended claim C6: a text overlay addressing page 5 of a
one-page document with a one-entry handle list makes the whole apply call
fail. -/
theorem apply_out_of_range_fails_witness :
    (∃ ov ∈ [(⟨"t5", 5, "text", "nm", JSValue.str "", 0, 0, 10, 10⟩ : Overlay)],
      ([(⟨⟨0, 0, 100, 100⟩, Rot.r0, []⟩ : PdfJsPage)]).length ≤ ov.pageIndex
        ∨ (1 ≤ ov.pageIndex ∧ knownType ov.type))
    ∧ ∃ e, applyFields 1 [⟨"t5", 5, "text", "nm", JSValue.str "", 0, 0, 10, 10⟩]
        [⟨⟨0, 0, 100, 100⟩, Rot.r0, []⟩] = .error e :=
  ⟨⟨_, List.mem_singleton.mpr rfl, Or.inl (by norm_num)⟩,
    apply_out_of_range_fails 1 [⟨⟨0, 0, 100, 100⟩, Rot.r0, []⟩]
      [⟨"t5", 5, "text", "nm", JSValue.str "", 0, 0, 10, 10⟩]
      ⟨_, List.mem_singleton.mpr rfl, Or.inl (by norm_num)⟩⟩

/-! ### Unknown overlay types are skipped (claim C10) -/

lemma applyOne_unknown (pageCount : Nat) (pages : List PdfJsPage)
    (acc : List CreatedField) (ov : Overlay)
    (hk : ¬knownType ov.type) (hlt : ov.pageIndex < pages.length) :
    applyOne pageCount pages acc ov = .ok acc := by
  unfold applyOne
  rw [List.get?_eq_get hlt]
  dsimp only
  rw [if_neg (fun h => hk (by unfold knownType; tauto)),
    if_neg (fun h => hk (by unfold knownType; tauto)),
    if_neg (fun h => hk (by unfold knownType; tauto))]

lemma applyGo_skips_unknown (pageCount : Nat) (pages : List PdfJsPage) :
    ∀ (ovs : List Overlay) (acc : List CreatedField),
      (∀ ov ∈ ovs, ¬knownType ov.type → ov.pageIndex < pages.length) →
      applyGo pageCount pages ovs acc
        = applyGo pageCount pages
            (ovs.filter (fun ov => knownType ov.type)) acc := by
  intro ovs
  induction ovs with
  | nil => intro acc _; rfl
  | cons ov rest ih =>
    intro acc h
    by_cases hk : knownType ov.type
    · rw [show (ov :: rest).filter (fun ov => knownType ov.type)
          = ov :: rest.filter (fun ov => knownType ov.type) from by
        simp [List.filter_cons, hk]]
      cases happ : applyOne pageCount pages acc ov with
      | error e => simp [applyGo, happ]
      | ok acc₂ =>
        simp only [applyGo, happ]
        exact ih acc₂ (fun o ho hko => h o (List.mem_cons_of_mem _ ho) hko)
    · rw [show (ov :: rest).filter (fun ov => knownType ov.type)
          = rest.filter (fun ov => knownType ov.type) from by
        simp [List.filter_cons, hk]]
      rw [show applyGo pageCount pages (ov :: rest) acc
          = applyGo pageCount pages rest acc from by
        simp [applyGo,
          applyOne_unknown pageCount pages acc ov hk
            (h ov (List.mem_cons_self _ _) hk)]]
      exact ih acc (fun o ho hko => h o (List.mem_cons_of_mem _ ho) hko)

/-- Claim C10 (amended): an overlay whose type is none of the five known
ones creates no field and leaves the rest of the apply call untouched: when
every unknown-type overlay has its pageIndex inside the page-handle list,
the apply result equals the result on the list with the unknown-type
overlays removed.  (The viewport conversion still runs for such overlays, so
one whose pageIndex is outside the page-handle list aborts the call, see the
counterexample.) -/
theorem apply_skips_unknown_types (pageCount : Nat) (pages : List PdfJsPage)
    (ovs : List Overlay)
    (h : ∀ ov ∈ ovs, ¬knownType ov.type → ov.pageIndex < pages.length) :
    applyFields pageCount ovs pages
      = applyFields pageCount (ovs.filter (fun ov => knownType ov.type)) pages :=
  applyGo_skips_unknown pageCount pages ovs [] h

/-- Counterexample to claim C10 as stated: an unknown-type overlay whose
pageIndex is outside the page-handle list makes the apply call fail rather
than complete, because its viewport conversion is still attempted. -/
theorem apply_skips_unknown_types_cex :
    applyFields 1 [⟨"u2", 1, "stamp", "", JSValue.str "", 0, 0, 10, 10⟩]
        [⟨⟨0, 0, 100, 100⟩, Rot.r0, []⟩]
      = .error .viewportOfUndefined := rfl

/-- Witness for the amended claim C10: a stamp overlay on the first page is
skipped and the apply result equals that of the filtered list. -/
theorem apply_skips_unknown_types_witness :
    (∀ ov ∈ [(⟨"u3", 0, "stamp", "", JSValue.str "", 0, 0, 10, 10⟩ : Overlay)],
      ¬knownType ov.type →
        ov.pageIndex < ([(⟨⟨0, 0, 100, 100⟩, Rot.r0, []⟩ : PdfJsPage)]).length)
    ∧ applyFields 1 [⟨"u3", 0, "stamp", "", JSValue.str "", 0, 0, 10, 10⟩]
          [⟨⟨0, 0, 100, 100⟩, Rot.r0, []⟩]
        = applyFields 1
            ([(⟨"u3", 0, "stamp", "", JSValue.str "", 0, 0, 10, 10⟩ : Overlay)].filter
              (fun ov => knownType ov.type))
            [⟨⟨0, 0, 100, 100⟩, Rot.r0, []⟩] :=
  ⟨by decide,
    apply_skips_unknown_types 1 [⟨⟨0, 0, 100, 100⟩, Rot.r0, []⟩]
      [⟨"u3", 0, "stamp", "", JSValue.str "", 0, 0, 10, 10⟩] (by decide)⟩

/-! ## Form flattening (claim C7)

flattenWithPdfLib wraps the catalog-entry removal and all per-page annots
removals in a single try block whose failure is caught, and then a second
try block around the library flatten fallback.  The object-model document is
modelled with presence flags; the possibility that a removal or the fallback
raises is modelled from the spec (StructuralCleanupError and
FlattenFallbackError), since the library calls are otherwise opaque. -/

/-- A page node: whether its annots entry is present and whether the
attempt to delete that entry raises (modelled from the spec:
StructuralCleanupError). -/
structure FlatPage where
  hasAnnots : Bool
  annotsDeleteRaises : Bool
deriving DecidableEq, Repr

/-- Modelled from the spec: the object-model document the Flattener works
on, with presence flags for the form catalog entry and failure flags for
the two swallowed error kinds of the spec's taxonomy. -/
structure FlatDoc where
  hasAcroForm : Bool
  acroDeleteRaises : Bool
  pages : List FlatPage
  flattenRaises : Bool
  flattened : Bool
deriving DecidableEq, Repr

/-- The per-page loop of the hard-delete phase: deletes each page's annots
entry in order (deleting an absent entry is a no-op); a raise propagates
immediately, leaving that page and all later pages untouched. -/
def deleteAnnotsLoop : List FlatPage → List FlatPage × Bool
  | [] => ([], false)
  | p :: ps =>
    if p.annotsDeleteRaises then (p :: ps, true)
    else
      let rest := deleteAnnotsLoop ps
      (⟨false, p.annotsDeleteRaises⟩ :: rest.1, rest.2)

/-- Phase 1 of flattenWithPdfLib: one try block that deletes the catalog
form entry and then loops over the pages; a raise anywhere is caught at the
block level, keeping whatever was mutated before it. -/
def hardDeletePhase (d : FlatDoc) : FlatDoc :=
  if d.acroDeleteRaises then d
  else
    let cleared := deleteAnnotsLoop d.pages
    ⟨false, d.acroDeleteRaises, cleared.1, d.flattenRaises, d.flattened⟩

/-- Source function flattenWithPdfLib: the hard-delete phase, then the
best-effort library flatten whose failure is swallowed, then save. -/
def flattenWithPdfLib (d : FlatDoc) : FlatDoc :=
  let d1 := hardDeletePhase d
  if d1.flattenRaises then d1
  else ⟨d1.hasAcroForm, d1.acroDeleteRaises, d1.pages, d1.flattenRaises, true⟩

lemma flattenWithPdfLib_pages (d : FlatDoc) :
    (flattenWithPdfLib d).pages = (hardDeletePhase d).pages := by
  unfold flattenWithPdfLib
  dsimp only
  split_ifs <;> rfl

lemma flattenWithPdfLib_hasAcroForm (d : FlatDoc) :
    (flattenWithPdfLib d).hasAcroForm = (hardDeletePhase d).hasAcroForm := by
  unfold flattenWithPdfLib
  dsimp only
  split_ifs <;> rfl

lemma deleteAnnotsLoop_no_raise :
    ∀ (ps : List FlatPage), (∀ p ∈ ps, p.annotsDeleteRaises = false) →
      ∀ q ∈ (deleteAnnotsLoop ps).1, q.hasAnnots = false := by
  intro ps
  induction ps with
  | nil => simp [deleteAnnotsLoop]
  | cons p ps ih =>
    intro h q hq
    rw [deleteAnnotsLoop, if_neg (by simp [h p (List.mem_cons_self p ps)])] at hq
    rcases List.mem_cons.mp hq with hq | hq
    · rw [hq]
    · exact ih (fun r hr => h r (List.mem_cons_of_mem _ hr)) q hq

/-- Claim C7 (amended): the two hard-delete removals live in one best-effort
block, not two: a failure raised while removing the form-catalog entry
prevents the per-page annots removals from being attempted at all; in the
other direction the catalog entry is always removed when its own delete does
not raise, since it is deleted first; and absence of either structure is a
no-op, not an error: when nothing raises, the output has no form catalog
entry and no page keeps an annots entry, whether or not they were present. -/
theorem flatten_hard_delete_dependence (d : FlatDoc) :
    (d.acroDeleteRaises = true → (flattenWithPdfLib d).pages = d.pages)
    ∧ (d.acroDeleteRaises = false →
        (flattenWithPdfLib d).hasAcroForm = false)
    ∧ (d.acroDeleteRaises = false →
        (∀ p ∈ d.pages, p.annotsDeleteRaises = false) →
        ∀ p ∈ (flattenWithPdfLib d).pages, p.hasAnnots = false) := by
  refine ⟨fun h => ?_, fun h => ?_, fun h hp => ?_⟩
  · rw [flattenWithPdfLib_pages]
    unfold hardDeletePhase
    rw [if_pos h]
  · rw [flattenWithPdfLib_hasAcroForm]
    unfold hardDeletePhase
    rw [if_neg (by simp [h])]
  · rw [flattenWithPdfLib_pages]
    unfold hardDeletePhase
    rw [if_neg (by simp [h])]
    exact deleteAnnotsLoop_no_raise d.pages hp

/-- Counterexample to claim C7 as stated: when removing the form-catalog
entry raises, the page's annots entry survives even though its own removal
would have succeeded — the removals are not attempted independently. -/
theorem flatten_hard_delete_dependence_cex :
    (flattenWithPdfLib ⟨true, true, [⟨true, false⟩], false, false⟩).pages
      = [⟨true, false⟩]
    ∧ (deleteAnnotsLoop [⟨true, false⟩]).1 = [⟨false, false⟩] := by
  exact ⟨rfl, rfl⟩

/-- Witness for the amended claim C7 at two concrete documents: one whose
catalog removal raises and keeps its page annots, and one without failures
that ends fully cleared. -/
theorem flatten_hard_delete_dependence_witness :
    ((true : Bool) = true
      ∧ (flattenWithPdfLib ⟨true, true, [⟨true, false⟩], true, false⟩).pages
          = [⟨true, false⟩])
    ∧ ((false : Bool) = false
      ∧ (flattenWithPdfLib ⟨false, false, [⟨true, false⟩, ⟨false, false⟩],
            false, false⟩).hasAcroForm = false
      ∧ ∀ p ∈ (flattenWithPdfLib ⟨false, false, [⟨true, false⟩, ⟨false, false⟩],
            false, false⟩).pages, p.hasAnnots = false) :=
  ⟨⟨rfl, (flatten_hard_delete_dependence
      ⟨true, true, [⟨true, false⟩], true, false⟩).1 rfl⟩,
   ⟨rfl, (flatten_hard_delete_dependence
      ⟨false, false, [⟨true, false⟩, ⟨false, false⟩], false, false⟩).2.1 rfl,
    (flatten_hard_delete_dependence
      ⟨false, false, [⟨true, false⟩, ⟨false, false⟩], false, false⟩).2.2 rfl
      (by decide)⟩⟩

end PdfFormApp
